import Mathlib

/-!
Verification of the escalation decision engine of
`src/filter_posts/mastodon_filter_ollama_v4.py` (Mastodon AI content filter),
shallowly embedded in Lean 4.

Modelling conventions:
* Python strings are `String`; Python floats used as confidences are `ℚ`
  (all the comparisons that matter use the literals 0.6, 0.0, 0.8, 0.9,
  where the rational and double orderings agree).
* Python dicts are association lists with first-match lookup; the value
  written for a key replaces a previous binding.
* The external social-network client is modelled by recording the list of
  API calls the code issues (`account_mute` / `account_block`); an
  exception thrown by the client inside a `try`/`except` block is absorbed
  by that block exactly as in the source, so issuance is the observable.
* A Python exception that escapes a function is an `Except.error` value;
  state mutated before the raise is kept, as the Python objects are.
* `ActionHandler._send_warning` is referenced at line 251 of the source but
  is defined nowhere in the repository, so in Python the attribute lookup
  `self._send_warning` raises `AttributeError`; the embedding models that
  call site accordingly.
-/

namespace MastFilter

/-- `Config` of `mastodon_filter_ollama_v4.py` (lines 16-47), restricted to the
fields the escalation engine reads.  `poll_interval`, file paths, the model
name and `retry_delay` only parameterize I/O and timing and are omitted. -/
structure Config where
  dry_run : Bool
  allowlist : List String
  max_retries : Nat
  mute_threshold : Nat
  block_threshold : Nat
  send_warnings : Bool
  new_account_days : Int
  new_account_instant_block : Bool
  new_account_no_warning : Bool
deriving Repr, DecidableEq

/-- The dataclass defaults, with the allowlist produced by `__post_init__`. -/
def defaultConfig : Config :=
  { dry_run := true
    allowlist := ["friend@mastodon.social", "another_friend@example.com",
                  "news_bot_i_like@botsin.space"]
    max_retries := 3
    mute_threshold := 1
    block_threshold := 3
    send_warnings := true
    new_account_days := 30
    new_account_instant_block := true
    new_account_no_warning := true }

/-- An author record as supplied by the social-network client: the fields
`take_action` reads.  `ageDays` is the number of days
`(datetime.now(tz) - created_at).days` computed by `_is_new_account` from the
`created_at` timestamp; `none` models a `created_at` value that
`dateutil.parser` fails to parse (the `except` branch of `_is_new_account`). -/
structure Author where
  id : String
  acct : String
  ageDays : Option Int
deriving Repr, DecidableEq

/-- The dictionary produced by `AIAnalyzer.analyze`: always has the three
keys `classification`, `reason`, `confidence` (the analyzer validates them
or substitutes its fail-safe), so the `decision.get(..., default)` reads in
`take_action` always find the key. -/
structure Decision where
  classification : String
  reason : String
  confidence : ℚ
deriving Repr, DecidableEq

/-- One entry of a user's infraction history (`add_infraction`, lines 90-94).
The wall-clock timestamp string is opaque to the logic; we carry a counter. -/
structure InfractionEntry where
  timestamp : Nat
  classification : String
  reason : String
deriving Repr, DecidableEq

/-- The per-user record stored in `InfractionTracker.infractions`. -/
structure InfractionRecord where
  count : Nat
  history : List InfractionEntry
deriving Repr, DecidableEq

/-- `InfractionTracker.infractions`: a dict from account handle to record,
as an association list with first-match lookup. -/
abbrev Infractions := List (String × InfractionRecord)

/-- Remove the binding of key `k` (Python `del d[k]`, or the displaced old
binding on a dict write), keeping every other binding in order. -/
def removeKey : Infractions → String → Infractions
  | [], _ => []
  | p :: rest, k =>
      if p.1 = k then removeKey rest k else p :: removeKey rest k

/-- Dict write `m[k] = v`: replaces the binding of `k`, keeps the others. -/
def dictInsert (m : Infractions) (k : String) (v : InfractionRecord) :
    Infractions :=
  (k, v) :: removeKey m k

/-- `InfractionTracker.add_infraction` (lines 82-95): create the record with
`count = 0`, empty history if absent, then `count += 1` and append one
history entry.  (`_save` is the durable write; it does not change the
in-memory state.) -/
def addInfraction (m : Infractions) (user_acct classification reason : String)
    (ts : Nat) : Infractions :=
  let rec0 := (m.lookup user_acct).getD ⟨0, []⟩
  dictInsert m user_acct
    ⟨rec0.count + 1, rec0.history ++ [⟨ts, classification, reason⟩]⟩

/-- `InfractionTracker.get_count` (lines 97-98): 0 when the handle is absent. -/
def getCount (m : Infractions) (user_acct : String) : Nat :=
  ((m.lookup user_acct).map (·.count)).getD 0

/-- `InfractionTracker.reset` (lines 100-103): delete the whole record. -/
def resetUser (m : Infractions) (user_acct : String) : Infractions :=
  removeKey m user_acct

/-- `ActionHandler._is_new_account` (lines 192-205): account age in days
compared against `new_account_days` (the method's one configuration read,
`self.config.new_account_days`, passed as an argument); a parse failure is
caught and treated as an established account (`return False`). -/
def isNewAccount (new_account_days : Int) (author : Author) : Bool :=
  match author.ageDays with
  | some d => d ≤ new_account_days
  | none => false

/-- A call issued against the Mastodon client by the action handler. -/
inductive ApiCall where
  | mute (author_id : String)
  | block (author_id : String)
deriving Repr, DecidableEq

/-- A Python exception escaping the embedded code.  Only the
`AttributeError` raised by the `self._send_warning` lookup (the method is
not defined in the source) can escape `take_action`; every other exception
inside it is caught by a local `try`/`except`. -/
inductive PyExc where
  | attributeError
deriving Repr, DecidableEq

/-- `ActionHandler._determine_action` (lines 263-279); its two
configuration reads (`self.config.mute_threshold`,
`self.config.block_threshold`) are passed as arguments. -/
def determineAction (mute_threshold block_threshold : Nat)
    (classification : String) (infraction_count : Nat) : String :=
  if classification = "SEVERELY_NEGATIVE" then
    if block_threshold ≤ infraction_count then "block" else "mute"
  else if classification = "MILDLY_NEGATIVE" then
    if block_threshold ≤ infraction_count then "block"
    else if mute_threshold ≤ infraction_count then "mute"
    else "none"
  else "none"

deriving instance DecidableEq for Except

/-- Result of `ActionHandler.take_action`: the tracker state at exit (kept
even when an exception escapes, since `add_infraction` has already run and
saved), the Mastodon API calls issued, the action named in the log line
("block" on the instant-block path, the `_determine_action` result once it
is reached — `_execute_action` logs it even in dry-run — and "none"
otherwise), and whether the call returned or raised. -/
structure TAResult where
  tracker : Infractions
  apiCalls : List ApiCall
  decidedAction : String
  outcome : Except PyExc Unit
deriving Repr, DecidableEq

/-- `ActionHandler.take_action` (lines 207-261) together with
`_execute_action` (lines 281-300), as a function of the tracker state.
`statusId` is the `status_id` argument (`none` models the `None` default,
which makes `if ... and status_id` false).  `ts` is the timestamp used for
a recorded infraction.  The `self._send_warning(...)` call raises
`AttributeError` because `ActionHandler` defines no such method. -/
def takeAction (cfg : Config) (tracker : Infractions) (author : Author)
    (decision : Decision) (statusId : Option String) (ts : Nat) : TAResult :=
  let classification := decision.classification
  let confidence := decision.confidence
  if classification = "NEUTRAL" then
    ⟨tracker, [], "none", .ok ()⟩
  else if confidence < 0.6 then
    ⟨tracker, [], "none", .ok ()⟩
  else if author.acct ∈ cfg.allowlist then
    ⟨tracker, [], "none", .ok ()⟩
  else
    let is_new := isNewAccount cfg.new_account_days author
    if is_new ∧ cfg.new_account_instant_block ∧
        (classification = "MILDLY_NEGATIVE" ∨
         classification = "SEVERELY_NEGATIVE") then
      if cfg.dry_run then ⟨tracker, [], "block", .ok ()⟩
      else ⟨tracker, [.block author.id], "block", .ok ()⟩
    else
      let tracker1 :=
        if classification = "MILDLY_NEGATIVE" ∨
           classification = "SEVERELY_NEGATIVE" then
          addInfraction tracker author.acct classification decision.reason ts
        else tracker
      let infraction_count := getCount tracker1 author.acct
      if cfg.send_warnings ∧ statusId.isSome ∧
          ¬(is_new ∧ cfg.new_account_no_warning) then
        ⟨tracker1, [], "none", .error .attributeError⟩
      else
        let action := determineAction cfg.mute_threshold cfg.block_threshold
          classification infraction_count
        if action = "none" then
          ⟨tracker1, [], "none", .ok ()⟩
        else if cfg.dry_run then
          ⟨tracker1, [], action, .ok ()⟩
        else if action = "mute" then
          ⟨tracker1, [.mute author.id], action, .ok ()⟩
        else if action = "block" then
          ⟨tracker1, [.block author.id], action, .ok ()⟩
        else
          ⟨tracker1, [], action, .ok ()⟩

/-- The JSON object parsed from one attempt's classifier response, before
validation: each of the three required keys may be missing.  A `confidence`
that is present but not numeric also behaves as a failure in the source
(the `f"...{ai_decision['confidence']:.2f}"` log line raises on it), so it
is likewise modelled as `none`. -/
structure RawResponse where
  classification : Option String
  reason : Option String
  confidence : Option ℚ
deriving Repr, DecidableEq

/-- The validation steps of `AIAnalyzer.analyze` (lines 154-162): all three
required keys present and the classification one of the three known values;
any other shape raises `ValueError` inside the `try`, which the `except`
turns into a retry. -/
def validateResponse (r : RawResponse) : Option Decision :=
  match r.classification, r.reason, r.confidence with
  | some c, some re, some cf =>
      if c = "NEUTRAL" ∨ c = "MILDLY_NEGATIVE" ∨ c = "SEVERELY_NEGATIVE" then
        some ⟨c, re, cf⟩
      else none
  | _, _, _ => none

/-- The dictionary returned at line 178-182 when every retry attempt failed. -/
def failsafeDecision : Decision :=
  ⟨"NEUTRAL", "AI analysis failed - defaulting to safe classification", 0⟩

/-- The retry loop of `AIAnalyzer.analyze` (lines 139-175): attempt `i` of
the external classifier yields `attempts i` (`none` models a transport
error or unparseable JSON); a validated response is returned, a failure
moves on to the next attempt; `rem` counts the remaining attempts. -/
def analyzeFrom (attempts : Nat → Option RawResponse) :
    Nat → Nat → Decision
  | _, 0 => failsafeDecision
  | i, rem + 1 =>
      match (attempts i).bind validateResponse with
      | some d => d
      | none => analyzeFrom attempts (i + 1) rem

/-- `AIAnalyzer.analyze` (lines 113-182): `max_retries` attempts, then the
fail-safe default.  Total by construction — the source catches every
exception inside the loop and always returns a dictionary. -/
def analyze (cfg : Config) (attempts : Nat → Option RawResponse) : Decision :=
  analyzeFrom attempts 0 cfg.max_retries

/-- A mention notification as consumed by `process_notification`: its id
(already stringified — the source applies `str` before every set operation),
the status id used for warning replies, the author, and the post's text
after HTML stripping (the text is opaque to the engine; it is only fed to
the classifier). -/
structure Notif where
  id : String
  statusId : String
  author : Author
  content : String
deriving Repr, DecidableEq

/-- The mutable state threaded through the poll loop: the
`NotificationProcessor.processed_ids` dedup set (as a list with membership
lookup), the `InfractionTracker` state, and the Mastodon API calls issued
so far. -/
structure ProcState where
  processedIds : List String
  tracker : Infractions
  calls : List ApiCall
deriving Repr, DecidableEq

/-- `NotificationProcessor.is_processed` (lines 321-322). -/
def isProcessed (st : ProcState) (nid : String) : Bool :=
  nid ∈ st.processedIds

/-- `NotificationProcessor.mark_processed` (lines 316-319): add to the
in-memory set and append to the durable file. -/
def markProcessed (st : ProcState) (nid : String) : ProcState :=
  { st with processedIds := nid :: st.processedIds }

/-- `MastodonFilter.process_notification` (lines 351-374), with the
classifier abstracted as the total function `analyzeFn` (justified by
`analyze` never raising): classify, `take_action`, then `mark_processed`.
If `take_action` raises, the exception escapes before `mark_processed`,
but the tracker mutation it already made is kept. -/
def processNotification (cfg : Config) (analyzeFn : String → Decision)
    (ts : Nat) (st : ProcState) (notif : Notif) :
    ProcState × Except PyExc Unit :=
  let decision := analyzeFn notif.content
  let r := takeAction cfg st.tracker notif.author decision
    (some notif.statusId) ts
  match r.outcome with
  | .error e => ({ st with tracker := r.tracker, calls := st.calls ++ r.apiCalls }, .error e)
  | .ok _ =>
      (markProcessed
        { st with tracker := r.tracker, calls := st.calls ++ r.apiCalls }
        notif.id, .ok ())

/-- The `for notif in reversed(new_notifications)` loop of
`MastodonFilter.run` (lines 403-404) inside the cycle's `try`: items are
processed in order; the first exception aborts the rest of the batch and is
caught by the `except Exception` handler at line 409, which logs it and
lets the loop continue.  Returns the final state, the ids actually handed
to `process_notification`, and the exception the handler caught (if any). -/
def processBatch (cfg : Config) (analyzeFn : String → Decision) (ts : Nat) :
    ProcState → List Notif → ProcState × List String × Option PyExc
  | st, [] => (st, [], none)
  | st, n :: rest =>
      match processNotification cfg analyzeFn ts st n with
      | (st', .ok _) =>
          let r := processBatch cfg analyzeFn ts st' rest
          (r.1, n.id :: r.2.1, r.2.2)
      | (st', .error e) => (st', [n.id], some e)

/-- One iteration of the `while True` poll loop of `MastodonFilter.run`
(lines 389-404): fetch (`fetched` is the raw notification list returned by
the client), keep the ids not yet processed, and drain the batch oldest
first (`reversed`). -/
def runCycle (cfg : Config) (analyzeFn : String → Decision) (ts : Nat)
    (st : ProcState) (fetched : List Notif) :
    ProcState × List String × Option PyExc :=
  let newNotifs := fetched.filter (fun n => ¬ isProcessed st n.id)
  processBatch cfg analyzeFn ts st newNotifs.reverse

/-- A sequence of poll cycles, each with its own raw fetch result; returns
the final state and every notification id handed to
`process_notification` across all cycles. -/
def runCycles (cfg : Config) (analyzeFn : String → Decision) (ts : Nat) :
    ProcState → List (List Notif) → ProcState × List String
  | st, [] => (st, [])
  | st, f :: fs =>
      let r := runCycle cfg analyzeFn ts st f
      let rest := runCycles cfg analyzeFn ts r.1 fs
      (rest.1, r.2.1 ++ rest.2)

/-- One mutating operation on the `InfractionTracker` (`get_count` reads
but does not mutate, so it is not a state transformer). -/
inductive LedgerOp where
  | add (user_acct classification reason : String) (ts : Nat)
  | reset (user_acct : String)
deriving Repr, DecidableEq

/-- Apply one tracker operation. -/
def applyOp (m : Infractions) : LedgerOp → Infractions
  | .add u c r ts => addInfraction m u c r ts
  | .reset u => resetUser m u

/-- Apply a sequence of tracker operations, oldest first. -/
def applyOps (m : Infractions) (ops : List LedgerOp) : Infractions :=
  ops.foldl applyOp m

/-- The tracker state of a freshly created ledger (no file, `_load`
returns `{}`). -/
def ledgerInit : Infractions := []

/-- The `count == len(history)` invariant, for every stored record. -/
def ledgerInv (m : Infractions) : Prop :=
  ∀ p ∈ m, p.2.count = p.2.history.length

/-- The result of a `take_action` call that returns without touching the
tracker, issuing an API call, or raising: the behavior of the three early
gates (neutral, low confidence, allowlist). -/
def inertResult (tracker : Infractions) : TAResult :=
  ⟨tracker, [], "none", .ok ()⟩

/-- C3: for every configuration, tracker state, author, classification and
status id, a decision with confidence below 0.6 makes `take_action` decide
no action: no mute, block or warning is issued, the call returns normally,
and the infraction ledger is exactly the input ledger (`add_infraction` is
never reached). -/
theorem takeAction_low_confidence_no_action (cfg : Config)
    (tr : Infractions) (author : Author) (dec : Decision)
    (sid : Option String) (ts : Nat) (h : dec.confidence < 0.6) :
    takeAction cfg tr author dec sid ts = inertResult tr := by
  unfold takeAction inertResult
  by_cases h1 : dec.classification = "NEUTRAL" <;> simp [h1, h]

/-- Witness for C3: a severely negative decision at confidence 0.5 against
an empty ledger produces the inert result. -/
theorem takeAction_low_confidence_no_action_witness :
    (0.5 : ℚ) < 0.6 ∧
      takeAction defaultConfig [] ⟨"12", "dave@example.org", some 90⟩
        ⟨"SEVERELY_NEGATIVE", "insult", 0.5⟩ (some "31") 0 = inertResult [] :=
  ⟨by norm_num,
   takeAction_low_confidence_no_action defaultConfig []
     ⟨"12", "dave@example.org", some 90⟩ ⟨"SEVERELY_NEGATIVE", "insult", 0.5⟩
     (some "31") 0 (by norm_num)⟩

/-- C4: an author whose handle is in the configured allowlist always gets
the inert outcome from `take_action` — no action, no API call, no ledger
write — whatever the classification, confidence and prior history. -/
theorem takeAction_allowlisted_no_action (cfg : Config)
    (tr : Infractions) (author : Author) (dec : Decision)
    (sid : Option String) (ts : Nat) (h : author.acct ∈ cfg.allowlist) :
    takeAction cfg tr author dec sid ts = inertResult tr := by
  unfold takeAction inertResult
  by_cases h1 : dec.classification = "NEUTRAL" <;>
    by_cases h2 : dec.confidence < 0.6 <;> simp [h1, h2, h]

/-- A ledger in which the allowlisted friend already has two infractions. -/
def friendLedger : Infractions :=
  [("friend@mastodon.social",
    ⟨2, [⟨0, "MILDLY_NEGATIVE", "a"⟩, ⟨1, "SEVERELY_NEGATIVE", "b"⟩]⟩)]

/-- Witness for C4: the default allowlist's first member, with a severe
classification at confidence 0.95 and two prior infractions on record,
still gets the inert outcome and an unchanged ledger. -/
theorem takeAction_allowlisted_no_action_witness :
    "friend@mastodon.social" ∈ defaultConfig.allowlist ∧
      takeAction defaultConfig friendLedger
        ⟨"2", "friend@mastodon.social", some 1000⟩
        ⟨"SEVERELY_NEGATIVE", "threat", 0.95⟩ (some "55") 7 =
        inertResult friendLedger :=
  ⟨by decide,
   takeAction_allowlisted_no_action defaultConfig friendLedger
     ⟨"2", "friend@mastodon.social", some 1000⟩
     ⟨"SEVERELY_NEGATIVE", "threat", 0.95⟩ (some "55") 7 (by decide)⟩

/-- C5: a non-allowlisted author whose parsed account age is at most
`new_account_days`, with `new_account_instant_block` enabled and a
mildly- or severely-negative classification at confidence at least 0.6,
is blocked immediately by the new-account fast path: the decided action is
"block", the call returns normally, in live mode exactly one
`account_block` call is issued (and in dry-run none), and the ledger is
exactly the input ledger — no infraction is recorded. -/
theorem takeAction_new_account_instant_block (cfg : Config)
    (tr : Infractions) (author : Author) (dec : Decision)
    (sid : Option String) (ts : Nat) (a : Int)
    (hallow : author.acct ∉ cfg.allowlist)
    (hage : author.ageDays = some a) (hle : a ≤ cfg.new_account_days)
    (hib : cfg.new_account_instant_block = true)
    (hcls : dec.classification = "MILDLY_NEGATIVE" ∨
            dec.classification = "SEVERELY_NEGATIVE")
    (hconf : (0.6 : ℚ) ≤ dec.confidence) :
    (takeAction cfg tr author dec sid ts).decidedAction = "block" ∧
    (takeAction cfg tr author dec sid ts).tracker = tr ∧
    (takeAction cfg tr author dec sid ts).outcome = .ok () ∧
    (cfg.dry_run = false →
      (takeAction cfg tr author dec sid ts).apiCalls = [.block author.id]) ∧
    (cfg.dry_run = true →
      (takeAction cfg tr author dec sid ts).apiCalls = []) := by
  have hN : ¬ dec.classification = "NEUTRAL" := by
    rcases hcls with h | h <;> simp [h]
  have hnew : isNewAccount cfg.new_account_days author = true := by
    simp [isNewAccount, hage, hle]
  have hnc : ¬ dec.confidence < 0.6 := not_lt.mpr hconf
  unfold takeAction
  simp only [hN, hnc, hnew, hib, hcls, if_false, if_true]
  cases hdr : cfg.dry_run <;> simp [hN, hnc, hallow, hnew, hib, hcls, hdr]

/-- A five-day-old account, used by the C5 witness. -/
def newTroll : Author := ⟨"41", "troll@new.example", some 5⟩

/-- A mildly negative decision at confidence 0.8. -/
def mild08 : Decision := ⟨"MILDLY_NEGATIVE", "dismissive reply", 0.8⟩

/-- Witness for C5, the spec's own scenario: account aged 5 days,
`new_account_days = 30`, `new_account_instant_block = true`, classification
`MILDLY_NEGATIVE`, confidence 0.8, empty ledger — the decided action is
"block" and the handle's infraction count stays 0. -/
theorem takeAction_new_account_instant_block_witness :
    (takeAction defaultConfig [] newTroll mild08 (some "7") 0).decidedAction
      = "block" ∧
    getCount (takeAction defaultConfig [] newTroll mild08 (some "7") 0).tracker
      "troll@new.example" = 0 := by
  have h := takeAction_new_account_instant_block defaultConfig [] newTroll
    mild08 (some "7") 0 5 (by decide) rfl (by decide) rfl (Or.inl rfl)
    (by norm_num [mild08])
  exact ⟨h.1, by rw [h.2.1]; rfl⟩

/-- C7, part one packaged with part two: if every one of the
`max_retries` classifier attempts fails (transport error, unparseable
JSON, missing keys, or an invalid classification value — all the shapes
`validateResponse` rejects), then `analyze` returns the fail-safe
`{NEUTRAL, "AI analysis failed ...", confidence 0.0}` dictionary, and
feeding that result to `take_action` yields the inert outcome for every
tracker state, author and status id: the fail-safe never triggers a
moderation action.  (`analyze` is a total function of the attempt oracle,
which is the embedded form of "never raises".) -/
theorem analyze_exhaustion_failsafe_no_action (cfg : Config)
    (attempts : Nat → Option RawResponse)
    (hfail : ∀ i, i < cfg.max_retries →
      (attempts i).bind validateResponse = none) :
    analyze cfg attempts = failsafeDecision ∧
    ∀ tr author sid ts,
      takeAction cfg tr author (analyze cfg attempts) sid ts =
        inertResult tr := by
  have key : ∀ rem i, (∀ j, i ≤ j → j < i + rem →
      (attempts j).bind validateResponse = none) →
      analyzeFrom attempts i rem = failsafeDecision := by
    intro rem
    induction rem with
    | zero => intro i _; rfl
    | succ r ih =>
        intro i hj
        have h0 : (attempts i).bind validateResponse = none :=
          hj i le_rfl (by omega)
        unfold analyzeFrom
        rw [h0]
        exact ih (i + 1) (fun j hij hjr => hj j (by omega) (by omega))
  have h1 : analyze cfg attempts = failsafeDecision :=
    key cfg.max_retries 0 (fun j _ hjr => hfail j (by omega))
  refine ⟨h1, fun tr author sid ts => ?_⟩
  rw [h1]
  unfold takeAction inertResult
  simp [failsafeDecision]

/-- Witness for C7: an oracle whose every attempt is a transport/JSON
failure, with the default `max_retries = 3`, yields the fail-safe
decision, and `take_action` on it is inert for a concrete author. -/
theorem analyze_exhaustion_failsafe_no_action_witness :
    analyze defaultConfig (fun _ => none) = failsafeDecision ∧
    takeAction defaultConfig [] ⟨"12", "dave@example.org", some 90⟩
      (analyze defaultConfig (fun _ => none)) (some "31") 1 =
      inertResult [] := by
  have h := analyze_exhaustion_failsafe_no_action defaultConfig
    (fun _ => none) (fun i _ => rfl)
  exact ⟨h.1, h.2 [] ⟨"12", "dave@example.org", some 90⟩ (some "31") 1⟩

/-- The shipped configuration with `dry_run` switched off (live mode). -/
def liveConfig : Config := { defaultConfig with dry_run := false }

/-- An established account (well past the 30-day window), used for the
warning-path evaluations. -/
def carol : Author := ⟨"77", "carol@example.net", some 400⟩

/-- C1 evaluation: in live mode, for an established author with a
mildly-negative decision at confidence 0.8 (so `_determine_action` would
return "mute" with `mute_threshold = 1`), `take_action` with
`send_warnings = true` and a status id records the infraction and then
raises `AttributeError` at the `self._send_warning(...)` call — the method
is not defined anywhere in the source — so no warning is delivered and the
primary mute action is never executed: no API call is issued. -/
theorem takeAction_send_warning_attributeError :
    takeAction liveConfig [] carol mild08 (some "4001") 0 =
      ⟨[("carol@example.net",
        ⟨1, [⟨0, "MILDLY_NEGATIVE", "dismissive reply"⟩]⟩)],
       [], "none", .error .attributeError⟩ := by
  have h6 : ¬ ((0.8 : ℚ) < 0.6) := by norm_num
  simp +decide [takeAction, liveConfig, defaultConfig, carol, mild08,
    isNewAccount, addInfraction, dictInsert, getCount, h6]

/-- The configuration with warnings disabled: the only way the
established-account escalation path of the source can run to completion. -/
def noWarnConfig : Config := { defaultConfig with send_warnings := false }

/-- The established account of the C6 escalation scenario. -/
def alice : Author := ⟨"9", "alice@example.com", some 40⟩

/-- A mildly negative decision at confidence 0.9. -/
def mild09 : Decision := ⟨"MILDLY_NEGATIVE", "grumpy reply", 0.9⟩

/-- First step of the three-event escalation scenario (warnings off). -/
def esc1 : TAResult := takeAction noWarnConfig [] alice mild09 (some "100") 0

/-- Second step, on the tracker left by the first. -/
def esc2 : TAResult :=
  takeAction noWarnConfig esc1.tracker alice mild09 (some "101") 1

/-- Third step, on the tracker left by the second. -/
def esc3 : TAResult :=
  takeAction noWarnConfig esc2.tracker alice mild09 (some "102") 2

/-- C6 evaluation.  With the shipped configuration (`send_warnings = true`,
a status id always supplied by `process_notification`), the established
account path records the infraction and then raises `AttributeError` at
the undefined `_send_warning`, so `_determine_action` and
`_execute_action` are never reached and no mute is issued (first three
conjuncts).  With the warning step disabled — the intended behavior —
three consecutive `MILDLY_NEGATIVE` events at confidence 0.9 from the same
established author under `mute_threshold = 1`, `block_threshold = 3` give
post-increment counts 1, 2, 3 and decided actions mute, mute, block
(remaining conjuncts). -/
theorem escalation_blocked_by_missing_send_warning :
    (takeAction defaultConfig [] alice mild09 (some "100") 0).outcome =
      .error .attributeError ∧
    (takeAction defaultConfig [] alice mild09 (some "100") 0).apiCalls = [] ∧
    getCount (takeAction defaultConfig [] alice mild09 (some "100") 0).tracker
      "alice@example.com" = 1 ∧
    esc1.decidedAction = "mute" ∧ esc2.decidedAction = "mute" ∧
    esc3.decidedAction = "block" ∧
    getCount esc1.tracker "alice@example.com" = 1 ∧
    getCount esc2.tracker "alice@example.com" = 2 ∧
    getCount esc3.tracker "alice@example.com" = 3 := by
  have h6 : ¬ ((0.9 : ℚ) < 0.6) := by norm_num
  refine ⟨?_, ?_, ?_, ?_, ?_, ?_, ?_, ?_, ?_⟩ <;>
    simp +decide [takeAction, esc1, esc2, esc3, noWarnConfig, defaultConfig,
      alice, mild09, isNewAccount, addInfraction, dictInsert, getCount,
      determineAction, h6]

/-- An uninvolved, friendly author for the batch scenario. -/
def bob : Author := ⟨"7", "bob@example.com", some 100⟩

/-- A harmless notification: its content classifies as neutral. -/
def batchGood : Notif := ⟨"n2", "s2", bob, "hello"⟩

/-- A notification whose processing raises: established author, mildly
negative content, so `take_action` reaches the undefined `_send_warning`. -/
def batchBad : Notif := ⟨"n1", "s1", alice, "ugh"⟩

/-- A concrete stand-in for the classifier in the batch scenario (the
gateway is total, so any `String → Decision` function is a faithful
abstraction of it). -/
def analyzeStub : String → Decision :=
  fun c => if c = "ugh" then mild09 else ⟨"NEUTRAL", "ok", 0.9⟩

/-- A fresh run: nothing processed, empty ledger, no calls issued. -/
def initialState : ProcState := ⟨[], [], []⟩

/-- Counterexample to C2: a cycle fetches two unseen notifications; the
oldest (`batchBad`, processed first because of `reversed`) raises inside
`take_action`.  The exception is caught at the batch level, but afterwards
nothing at all is marked processed — neither the failing `"n1"` (the claim
says it would still be marked) nor the harmless `"n2"` — and only `"n1"`
was ever handed to `process_notification`: the failure aborted the rest of
the batch. -/
theorem runCycle_item_failure_aborts_batch :
    (runCycle defaultConfig analyzeStub 0 initialState
      [batchGood, batchBad]).1.processedIds = [] ∧
    (runCycle defaultConfig analyzeStub 0 initialState
      [batchGood, batchBad]).2.1 = ["n1"] ∧
    (runCycle defaultConfig analyzeStub 0 initialState
      [batchGood, batchBad]).2.2 = some .attributeError := by
  have h6 : ¬ ((0.9 : ℚ) < 0.6) := by norm_num
  refine ⟨?_, ?_, ?_⟩ <;>
    simp +decide [runCycle, processBatch, processNotification, isProcessed,
      initialState, batchGood, batchBad, analyzeStub, takeAction, alice,
      mild09, defaultConfig, isNewAccount, addInfraction, dictInsert,
      getCount, h6]

/-- C2 as amended: an exception raised while processing one item of a
batch is caught (and logged) by the cycle-level handler, so the
orchestrator loop survives it; but the remaining items of the batch are
not attempted in this cycle, and the failing notification is NOT marked
processed — its state keeps only the tracker/call mutations made before
the raise. -/
theorem processBatch_error_aborts_and_skips_mark (cfg : Config)
    (fn : String → Decision) (ts : Nat) (st : ProcState) (n : Notif)
    (rest : List Notif) (e : PyExc)
    (h : (processNotification cfg fn ts st n).2 = .error e) :
    processBatch cfg fn ts st (n :: rest) =
      ((processNotification cfg fn ts st n).1, [n.id], some e) ∧
    (processNotification cfg fn ts st n).1.processedIds =
      st.processedIds := by
  constructor
  · cases e
    rcases hq : processNotification cfg fn ts st n with ⟨st', out⟩
    rw [hq] at h
    have h2 : out = Except.error PyExc.attributeError := h
    subst h2
    simp [processBatch, hq]
  · unfold processNotification at h ⊢
    rcases hout : (takeAction cfg st.tracker n.author (fn n.content)
        (some n.statusId) ts).outcome with e' | u
    · simp [hout]
    · simp [hout] at h

/-- Witness for the amended C2: the concrete failing batch. -/
theorem processBatch_error_aborts_and_skips_mark_witness :
    processBatch defaultConfig analyzeStub 0 initialState
        [batchBad, batchGood] =
      ((processNotification defaultConfig analyzeStub 0 initialState
          batchBad).1, [batchBad.id], some PyExc.attributeError) ∧
    (processNotification defaultConfig analyzeStub 0 initialState
        batchBad).1.processedIds = initialState.processedIds := by
  have h6 : ¬ ((0.9 : ℚ) < 0.6) := by norm_num
  have h : (processNotification defaultConfig analyzeStub 0 initialState
      batchBad).2 = .error .attributeError := by
    simp +decide [processNotification, initialState, batchBad, analyzeStub,
      takeAction, alice, mild09, defaultConfig, isNewAccount, addInfraction,
      dictInsert, getCount, h6]
  exact processBatch_error_aborts_and_skips_mark defaultConfig analyzeStub 0
    initialState batchBad [batchGood] .attributeError h

/-- Length of the history list stored for a handle (0 when absent). -/
def historyLen (m : Infractions) (user_acct : String) : Nat :=
  ((m.lookup user_acct).map (·.history.length)).getD 0

theorem lookup_dictInsert_self (m : Infractions) (k : String)
    (v : InfractionRecord) : (dictInsert m k v).lookup k = some v := by
  simp [dictInsert, List.lookup]

theorem lookup_removeKey_ne (m : Infractions) (u v : String) (h : u ≠ v) :
    (removeKey m v).lookup u = m.lookup u := by
  induction m with
  | nil => rfl
  | cons p rest ih =>
      rcases p with ⟨k, w⟩
      by_cases hk : k = v
      · subst hk
        have hu : (u == k) = false := by simp [h]
        simp [removeKey, List.lookup, hu, ih]
      · by_cases huk : u = k
        · subst huk
          simp [removeKey, hk, List.lookup]
        · have hu : (u == k) = false := by simp [huk]
          simp [removeKey, hk, List.lookup, hu, ih]

theorem lookup_removeKey_self (m : Infractions) (v : String) :
    (removeKey m v).lookup v = none := by
  induction m with
  | nil => rfl
  | cons p rest ih =>
      rcases p with ⟨k, w⟩
      by_cases hk : k = v
      · simp [removeKey, hk, ih]
      · have hv : (v == k) = false := by
          simp only [beq_eq_false_iff_ne, ne_eq]
          exact fun hvk => hk hvk.symm
        simp [removeKey, hk, List.lookup, hv, ih]

theorem mem_removeKey (m : Infractions) (v : String)
    (p : String × InfractionRecord) (hp : p ∈ removeKey m v) : p ∈ m := by
  induction m with
  | nil => simp [removeKey] at hp
  | cons q rest ih =>
      by_cases hq : q.1 = v
      · simp only [removeKey, if_pos hq] at hp
        exact List.mem_cons_of_mem _ (ih hp)
      · simp only [removeKey, if_neg hq] at hp
        rcases List.mem_cons.mp hp with hh | ht
        · exact hh ▸ List.mem_cons_self _ _
        · exact List.mem_cons_of_mem _ (ih ht)

theorem lookup_dictInsert_ne (m : Infractions) (k u : String)
    (v : InfractionRecord) (h : u ≠ k) :
    (dictInsert m k v).lookup u = m.lookup u := by
  have hu : (u == k) = false := by simp [h]
  simp [dictInsert, List.lookup, hu, lookup_removeKey_ne m u k h]

theorem getCount_addInfraction_self (m : Infractions)
    (u c r : String) (ts : Nat) :
    getCount (addInfraction m u c r ts) u = getCount m u + 1 := by
  cases hm : m.lookup u <;>
    simp [addInfraction, getCount, lookup_dictInsert_self, hm]

theorem historyLen_addInfraction_self (m : Infractions)
    (u c r : String) (ts : Nat) :
    historyLen (addInfraction m u c r ts) u = historyLen m u + 1 := by
  cases hm : m.lookup u <;>
    simp [addInfraction, historyLen, lookup_dictInsert_self, hm]

theorem getCount_addInfraction_ne (m : Infractions)
    (u u' c r : String) (ts : Nat) (h : u ≠ u') :
    getCount (addInfraction m u' c r ts) u = getCount m u := by
  simp [addInfraction, getCount, lookup_dictInsert_ne _ _ _ _ h]

theorem getCount_resetUser_self (m : Infractions) (u : String) :
    getCount (resetUser m u) u = 0 := by
  simp [resetUser, getCount, lookup_removeKey_self]

theorem getCount_resetUser_ne (m : Infractions) (u v : String)
    (h : u ≠ v) : getCount (resetUser m v) u = getCount m u := by
  simp [resetUser, getCount, lookup_removeKey_ne m u v h]

theorem ledgerInv_lookup (m : Infractions) (u : String)
    (rcd : InfractionRecord) (hinv : ledgerInv m)
    (hm : m.lookup u = some rcd) : rcd.count = rcd.history.length := by
  induction m with
  | nil => simp [List.lookup] at hm
  | cons p rest ih =>
      rcases p with ⟨k, w⟩
      by_cases huk : u = k
      · subst huk
        simp [List.lookup] at hm
        subst hm
        exact hinv (u, w) (List.mem_cons_self _ _)
      · have hu : (u == k) = false := by simp [huk]
        simp [List.lookup, hu] at hm
        exact ih (fun q hq => hinv q (List.mem_cons_of_mem _ hq)) hm

theorem ledgerInv_applyOp (m : Infractions) (op : LedgerOp)
    (hinv : ledgerInv m) : ledgerInv (applyOp m op) := by
  cases op with
  | add u c r ts =>
      intro p hp
      simp only [applyOp, addInfraction, dictInsert] at hp
      rcases List.mem_cons.mp hp with hhead | htail
      · subst hhead
        cases hm : m.lookup u with
        | none => simp [hm]
        | some rcd => simp [hm, ledgerInv_lookup m u rcd hinv hm]
      · exact hinv p (mem_removeKey m u p htail)
  | reset u =>
      intro p hp
      simp only [applyOp, resetUser] at hp
      exact hinv p (mem_removeKey m u p hp)

/-- C8: (1) every tracker state reachable from a fresh ledger by any
sequence of `add_infraction`/`reset` operations (`get_count` reads without
mutating) satisfies `count == len(history)` for every stored record;
(2) `add_infraction` increments the handle's count by exactly 1 and
appends exactly one history entry; (3) a handle's count never decreases
under any operation other than a `reset` of that very handle; and (4) an
explicit reset deletes the record, making `get_count` return 0. -/
theorem infraction_ledger_invariants :
    (∀ ops : List LedgerOp, ledgerInv (applyOps ledgerInit ops)) ∧
    (∀ (m : Infractions) (u c r : String) (ts : Nat),
        getCount (addInfraction m u c r ts) u = getCount m u + 1 ∧
        historyLen (addInfraction m u c r ts) u = historyLen m u + 1) ∧
    (∀ (m : Infractions) (u : String) (op : LedgerOp),
        (∀ v, op = LedgerOp.reset v → v ≠ u) →
        getCount m u ≤ getCount (applyOp m op) u) ∧
    (∀ (m : Infractions) (u : String), getCount (resetUser m u) u = 0) := by
  refine ⟨?_, ?_, ?_, ?_⟩
  · have gen : ∀ (ops : List LedgerOp) (m : Infractions), ledgerInv m →
        ledgerInv (applyOps m ops) := by
      intro ops
      induction ops with
      | nil => intro m hm; exact hm
      | cons op rest ih =>
          intro m hm
          exact ih (applyOp m op) (ledgerInv_applyOp m op hm)
    intro ops
    exact gen ops ledgerInit (fun p hp => by simp [ledgerInit] at hp)
  · intro m u c r ts
    exact ⟨getCount_addInfraction_self m u c r ts,
      historyLen_addInfraction_self m u c r ts⟩
  · intro m u op hop
    cases op with
    | add u' c r ts =>
        simp only [applyOp]
        by_cases h : u = u'
        · subst h
          rw [getCount_addInfraction_self]
          exact Nat.le_succ _
        · rw [getCount_addInfraction_ne m u u' c r ts h]
    | reset v =>
        simp only [applyOp]
        have hv : v ≠ u := hop v rfl
        rw [getCount_resetUser_ne m u v (fun h => hv h.symm)]
  · intro m u
    exact getCount_resetUser_self m u

/-- Witness for C8: concrete instantiations of every conjunct, with the
inner hypothesis of the monotonicity conjunct discharged at an `add`
operation. -/
theorem infraction_ledger_invariants_witness :
    ledgerInv (applyOps ledgerInit
      [LedgerOp.add "u@h" "MILDLY_NEGATIVE" "r" 0, LedgerOp.reset "u@h"]) ∧
    getCount (addInfraction [] "u@h" "MILDLY_NEGATIVE" "r" 0) "u@h" =
      getCount ([] : Infractions) "u@h" + 1 ∧
    getCount ([] : Infractions) "u@h" ≤
      getCount (applyOp [] (LedgerOp.add "u@h" "x" "r" 1)) "u@h" ∧
    getCount (resetUser [("u@h", ⟨1, [⟨0, "c", "r"⟩]⟩)] "u@h") "u@h" = 0 :=
  ⟨infraction_ledger_invariants.1 _,
   (infraction_ledger_invariants.2.1 [] "u@h" "MILDLY_NEGATIVE" "r" 0).1,
   infraction_ledger_invariants.2.2.1 [] "u@h" _
     (fun _ hv => LedgerOp.noConfusion hv),
   infraction_ledger_invariants.2.2.2 _ "u@h"⟩

theorem procNotif_processedIds_mono (cfg : Config) (fn : String → Decision)
    (ts : Nat) (st : ProcState) (n : Notif) :
    st.processedIds ⊆ (processNotification cfg fn ts st n).1.processedIds := by
  unfold processNotification
  rcases hout : (takeAction cfg st.tracker n.author (fn n.content)
      (some n.statusId) ts).outcome with e | u
  · simp [hout]
  · simp [hout, markProcessed]

theorem processBatch_processedIds_mono (cfg : Config)
    (fn : String → Decision) (ts : Nat) (l : List Notif) (st : ProcState) :
    st.processedIds ⊆ (processBatch cfg fn ts st l).1.processedIds := by
  induction l generalizing st with
  | nil => exact fun x hx => hx
  | cons n rest ih =>
      rcases hp : processNotification cfg fn ts st n with ⟨st', out⟩
      have hmono : st.processedIds ⊆ st'.processedIds := by
        have := procNotif_processedIds_mono cfg fn ts st n
        rw [hp] at this
        exact this
      cases out with
      | ok u =>
          simp only [processBatch, hp]
          exact fun x hx => ih st' (hmono hx)
      | error e =>
          simp only [processBatch, hp]
          exact hmono

theorem processBatch_attempted_mem (cfg : Config) (fn : String → Decision)
    (ts : Nat) (l : List Notif) (st : ProcState) (x : String)
    (hx : x ∈ (processBatch cfg fn ts st l).2.1) : ∃ n ∈ l, n.id = x := by
  induction l generalizing st with
  | nil => simp [processBatch] at hx
  | cons n rest ih =>
      rcases hp : processNotification cfg fn ts st n with ⟨st', out⟩
      cases out with
      | ok u =>
          rw [processBatch, hp] at hx
          simp only [List.mem_cons] at hx
          rcases hx with hh | ht
          · exact ⟨n, List.mem_cons_self _ _, hh.symm⟩
          · obtain ⟨n', hn', hid⟩ := ih st' ht
            exact ⟨n', List.mem_cons_of_mem _ hn', hid⟩
      | error e =>
          rw [processBatch, hp] at hx
          simp only [List.mem_singleton] at hx
          exact ⟨n, List.mem_cons_self _ _, hx.symm⟩

theorem runCycle_not_attempted (cfg : Config) (fn : String → Decision)
    (ts : Nat) (st : ProcState) (nid : String) (fetched : List Notif)
    (h : nid ∈ st.processedIds) :
    nid ∉ (runCycle cfg fn ts st fetched).2.1 := by
  intro hx
  obtain ⟨n, hn, hid⟩ := processBatch_attempted_mem cfg fn ts _ st nid hx
  rw [List.mem_reverse, List.mem_filter] at hn
  have : ¬ (isProcessed st n.id = true) := by
    simpa using hn.2
  exact this (by simp [isProcessed, hid, h])

theorem runCycle_processedIds_mono (cfg : Config) (fn : String → Decision)
    (ts : Nat) (st : ProcState) (fetched : List Notif) :
    st.processedIds ⊆ (runCycle cfg fn ts st fetched).1.processedIds :=
  processBatch_processedIds_mono cfg fn ts _ st

theorem runCycles_not_attempted (cfg : Config) (fn : String → Decision)
    (ts : Nat) (fetches : List (List Notif)) (st : ProcState) (nid : String)
    (h : nid ∈ st.processedIds) :
    nid ∉ (runCycles cfg fn ts st fetches).2 := by
  induction fetches generalizing st with
  | nil => simp [runCycles]
  | cons f fs ih =>
      simp only [runCycles, List.mem_append]
      push_neg
      refine ⟨runCycle_not_attempted cfg fn ts st nid f h, ?_⟩
      exact ih _ (runCycle_processedIds_mono cfg fn ts st f h)

/-- C9: once `mark_processed(id)` has completed (from any state), no
subsequent poll cycle hands a notification with that id to
`process_notification` again — the id occurs zero times among the ids
attempted across any later sequence of cycles, whatever the
configuration, classifier behavior and raw fetch results, including
fetches that still contain the id. -/
theorem marked_id_never_reprocessed (cfg : Config) (fn : String → Decision)
    (ts : Nat) (st : ProcState) (nid : String)
    (fetches : List (List Notif)) :
    ((runCycles cfg fn ts (markProcessed st nid) fetches).2).count nid = 0 :=
  List.count_eq_zero.mpr
    (runCycles_not_attempted cfg fn ts fetches (markProcessed st nid) nid
      (by simp [markProcessed]))

theorem takeAction_dry_run_frame (cfg : Config) (tr : Infractions)
    (author : Author) (dec : Decision) (sid : Option String) (ts : Nat) :
    takeAction { cfg with dry_run := true } tr author dec sid ts =
      { takeAction { cfg with dry_run := false } tr author dec sid ts with
        apiCalls := [] } := by
  rcases cfg with ⟨dr, al, mr, mt, bt, sw, nd, ib, nw⟩
  by_cases h1 : dec.classification = "NEUTRAL"
  · simp [takeAction, h1]
  · by_cases h2 : dec.confidence < (0.6 : ℚ)
    · simp [takeAction, h1, h2]
    · by_cases h3 : author.acct ∈ al
      · simp [takeAction, h1, h2, h3]
      · by_cases h4 : (dec.classification = "MILDLY_NEGATIVE" ∨
            dec.classification = "SEVERELY_NEGATIVE")
        · by_cases h6 : determineAction mt bt dec.classification
              (getCount (addInfraction tr author.acct dec.classification
                dec.reason ts) author.acct) = "none" <;>
          cases hin : isNewAccount nd author <;>
          cases ib <;> cases sw <;> cases nw <;>
          rcases sid with _ | s <;>
            simp [takeAction, h1, h2, h3, h4, h6, hin,
              apply_ite TAResult.tracker,
              apply_ite TAResult.decidedAction,
              apply_ite TAResult.outcome]
        · by_cases h6 : determineAction mt bt dec.classification
              (getCount tr author.acct) = "none" <;>
          cases hin : isNewAccount nd author <;>
          cases ib <;> cases sw <;> cases nw <;>
          rcases sid with _ | s <;>
            simp [takeAction, h1, h2, h3, h4, h6, hin,
              apply_ite TAResult.tracker,
              apply_ite TAResult.decidedAction,
              apply_ite TAResult.outcome]

/-- C10: with `dry_run` enabled (the shipped default), `take_action` never
issues an `account_mute` or `account_block` call against the client — on
the new-account instant-block path and in `_execute_action` alike — while
the ledger it leaves behind, its outcome (return or raise), and the
decided/logged action are exactly those of live mode, and
`process_notification` marks exactly the same dedup ids as it would in
live mode. -/
theorem dry_run_no_api_calls_same_state (cfg : Config) (tr : Infractions)
    (author : Author) (dec : Decision) (sid : Option String) (ts : Nat)
    (fn : String → Decision) (st : ProcState) (n : Notif) :
    (takeAction { cfg with dry_run := true } tr author dec sid ts).apiCalls
      = [] ∧
    (takeAction { cfg with dry_run := true } tr author dec sid ts).tracker =
      (takeAction { cfg with dry_run := false } tr author dec sid ts).tracker ∧
    (takeAction { cfg with dry_run := true } tr author dec sid ts).outcome =
      (takeAction { cfg with dry_run := false } tr author dec sid ts).outcome ∧
    (takeAction { cfg with dry_run := true } tr author dec sid
        ts).decidedAction =
      (takeAction { cfg with dry_run := false } tr author dec sid
        ts).decidedAction ∧
    (processNotification { cfg with dry_run := true } fn ts st
        n).1.processedIds =
      (processNotification { cfg with dry_run := false } fn ts st
        n).1.processedIds := by
  refine ⟨?_, ?_, ?_, ?_, ?_⟩
  · rw [takeAction_dry_run_frame]
  · rw [takeAction_dry_run_frame]
  · rw [takeAction_dry_run_frame]
  · rw [takeAction_dry_run_frame]
  · have ho : (takeAction { cfg with dry_run := true } st.tracker n.author
        (fn n.content) (some n.statusId) ts).outcome =
        (takeAction { cfg with dry_run := false } st.tracker n.author
          (fn n.content) (some n.statusId) ts).outcome := by
      rw [takeAction_dry_run_frame]
    unfold processNotification
    rcases h1 : (takeAction { cfg with dry_run := true } st.tracker n.author
        (fn n.content) (some n.statusId) ts).outcome with e | u
    · have h2 := ho.symm.trans h1
      simp [h1, h2]
    · have h2 := ho.symm.trans h1
      simp [h1, h2, markProcessed]

end MastFilter
